import Mathlib

/-!
Verification of the multi-signature governance core of the `agora` repository
(event_registry contract). The repository snapshot ships the documentation of
the governance engine but not its Rust sources (`src/lib.rs`, `src/types.rs`,
`src/storage.rs` of the contract), so the engine is modelled here from the
specification's description of the data model (spec §3), the operations
(spec §4.1-4.4) and the error taxonomy (spec §7).
-/

namespace Agora

/-- Opaque admin identity handle (principal), spec §3. -/
abbrev Admin := Nat

/-- Wallet address, spec §3 (`SetWallet(Address)`). -/
abbrev Address := Nat

/-- Logical time supplied by the external clock, spec §6. -/
abbrev Time := Nat

/-- Modelled from the spec: `ProposalType` tagged variant (spec §3); the Rust
`src/types.rs` of the event_registry contract is not in the snapshot. -/
inductive ProposalType where
  | SetWallet (addr : Address)
  | AddAdmin (x : Admin)
  | RemoveAdmin (x : Admin)
  | SetThreshold (t : Nat)
  deriving DecidableEq, Repr

/-- Modelled from the spec: the `Proposal` record (spec §3). `expires_at = 0`
is the "never" sentinel (ttl = 0 means no expiry, spec §4.3). -/
structure Proposal where
  id : Nat
  kind : ProposalType
  proposer : Admin
  approvals : List Admin
  created_at : Time
  expires_at : Time
  executed : Bool
  deriving DecidableEq, Repr

/-- Modelled from the spec: `Config` = admin set plus threshold (spec §3). -/
structure Config where
  admins : List Admin
  threshold : Nat
  deriving DecidableEq, Repr

/-- Modelled from the spec: the error taxonomy of spec §7. -/
inductive Err where
  | Unauthorized
  | NotFound
  | AlreadyExecuted
  | ProposalExpired
  | AlreadyApproved
  | InsufficientApprovals
  | InvalidThreshold
  | AdminAlreadyExists
  | AdminNotFound
  | CannotRemoveLastAdmin
  | InvalidProposalArgs
  deriving DecidableEq, Repr

/-- Modelled from the spec: the durable state of the core — Config Store,
platform wallet, Proposal Store (keyed by id, spec §4.2), active-proposal
index and the id counter (spec §4.2, storage keys of spec §6). -/
structure State where
  config : Config
  wallet : Address
  proposals : Nat → Option Proposal
  active : List Nat
  counter : Nat

/-- Modelled from the spec: `validate_threshold(threshold, admin_count) =
threshold > 0 AND threshold ≤ admin_count` (spec §4.1). -/
def validate_threshold (t admin_count : Nat) : Bool :=
  decide (0 < t ∧ t ≤ admin_count)

/-- Modelled from the spec: membership in the current admin set (spec §4.3,
"current is re-evaluated at call time"). -/
def is_admin (cfg : Config) (a : Admin) : Bool :=
  decide (a ∈ cfg.admins)

/-- Modelled from the spec: expiry predicate, "computed as `expires_at ≠
never AND now > expires_at`" (spec §4.3). -/
def isExpired (p : Proposal) (now : Time) : Bool :=
  decide (p.expires_at ≠ 0 ∧ p.expires_at < now)

/-- Modelled from the spec: the number of approvals that belong to admins who
are still current, `|approvals ∩ current_admin_set|` (spec §4.3). -/
def validApprovals (cfg : Config) (p : Proposal) : Nat :=
  (p.approvals.filter (fun a => decide (a ∈ cfg.admins))).length

/-- Key-value put into the proposal store at a given id (spec §4.2 `put`). -/
def putProposal (ps : Nat → Option Proposal) (id : Nat) (p : Proposal) :
    Nat → Option Proposal :=
  fun j => if j = id then some p else ps j

/-- Modelled from the spec: the kind-specific advisory sanity check performed
at proposal creation (spec §4.3 `create_proposal` preconditions). -/
def sanity_check (cfg : Config) : ProposalType → Bool
  | .SetWallet _ => true
  | .AddAdmin x => !(decide (x ∈ cfg.admins))
  | .RemoveAdmin x => decide (x ∈ cfg.admins)
  | .SetThreshold t => decide (0 < t)

/-- Modelled from the spec: `create_proposal(proposer, kind, ttl)` (spec
§4.3). Checks proposer is a current admin, then the advisory kind check;
assigns the next id (strictly increasing, starting at 1, spec §4.2), stores
the proposal with `approvals = {proposer}`, `created_at = now`,
`expires_at = now + ttl` (`ttl = 0` meaning no expiry), `executed = false`,
and adds the id to the active index. Errors return the state unmutated. -/
def create_proposal (s : State) (proposer : Admin) (kind : ProposalType)
    (ttl : Nat) (now : Time) : State × Except Err Nat :=
  if is_admin s.config proposer then
    if sanity_check s.config kind then
      let id := s.counter + 1
      let p : Proposal :=
        { id := id
          kind := kind
          proposer := proposer
          approvals := [proposer]
          created_at := now
          expires_at := if ttl = 0 then 0 else now + ttl
          executed := false }
      let s' : State :=
        { s with
          counter := id
          proposals := putProposal s.proposals id p
          active := id :: s.active }
      (s', .ok id)
    else (s, .error .InvalidProposalArgs)
  else (s, .error .Unauthorized)

/-- Modelled from the spec: `approve_proposal(approver, id)` (spec §4.3).
Preconditions in the spec's order: proposal exists; not executed; not
expired; approver is a current admin; approver not already in `approvals`.
Effect: appends the approver to `approvals`. -/
def approve_proposal (s : State) (approver : Admin) (id : Nat) (now : Time) :
    State × Except Err Unit :=
  match s.proposals id with
  | none => (s, .error .NotFound)
  | some p =>
    if p.executed then (s, .error .AlreadyExecuted)
    else if isExpired p now then (s, .error .ProposalExpired)
    else if is_admin s.config approver then
      if decide (approver ∈ p.approvals) then (s, .error .AlreadyApproved)
      else
        let s' : State :=
          { s with
            proposals :=
              putProposal s.proposals id
                { p with approvals := approver :: p.approvals } }
        (s', .ok ())
    else (s, .error .Unauthorized)

/-- Modelled from the spec: the type-specific final validation and the config
mutation of `execute_proposal` (spec §4.3), against the current Config:
`AddAdmin` fails on duplicates, `RemoveAdmin` fails when the target is not a
current admin or is the last admin, and auto-clamps the threshold to the new
admin count when it would exceed it; `SetThreshold` revalidates the bound. -/
def exec_apply (cfg : Config) (wallet : Address) :
    ProposalType → Except Err (Config × Address)
  | .SetWallet addr => .ok (cfg, addr)
  | .AddAdmin x =>
    if decide (x ∈ cfg.admins) then .error .AdminAlreadyExists
    else .ok ({ cfg with admins := cfg.admins ++ [x] }, wallet)
  | .RemoveAdmin x =>
    if decide (x ∈ cfg.admins) then
      if cfg.admins.length = 1 then .error .CannotRemoveLastAdmin
      else
        let admins' := cfg.admins.erase x
        let th' :=
          if admins'.length < cfg.threshold then admins'.length
          else cfg.threshold
        .ok ({ admins := admins', threshold := th' }, wallet)
    else .error .AdminNotFound
  | .SetThreshold t =>
    if validate_threshold t cfg.admins.length then
      .ok ({ cfg with threshold := t }, wallet)
    else .error .InvalidThreshold

/-- Modelled from the spec: `execute_proposal(executor, id)` (spec §4.3).
Preconditions in the spec's order: proposal exists; not executed; not
expired; executor is a current admin; `|approvals ∩ current_admin_set| ≥
threshold` (only approvals from still-current admins count); then the
type-specific final validation. Effect is atomic: new config (with threshold
auto-clamp), `executed := true`, id removed from the active index. -/
def execute_proposal (s : State) (executor : Admin) (id : Nat) (now : Time) :
    State × Except Err Unit :=
  match s.proposals id with
  | none => (s, .error .NotFound)
  | some p =>
    if p.executed then (s, .error .AlreadyExecuted)
    else if isExpired p now then (s, .error .ProposalExpired)
    else if is_admin s.config executor then
      if validApprovals s.config p < s.config.threshold then
        (s, .error .InsufficientApprovals)
      else
        match exec_apply s.config s.wallet p.kind with
        | .error e => (s, .error e)
        | .ok (cfg', wallet') =>
          let s' : State :=
            { s with
              config := cfg'
              wallet := wallet'
              proposals := putProposal s.proposals id { p with executed := true }
              active := s.active.erase id }
          (s', .ok ())
    else (s, .error .Unauthorized)

/-- Modelled from the spec: contract initialization with a single admin and
threshold 1 (part_004 "Initialization"; IMPLEMENTATION_SUMMARY.md). The fee
only concerns the out-of-scope event-catalog part and is ignored by the
governance core. -/
def initContract (admin : Admin) (platform_wallet : Address) (_fee : Nat) :
    State :=
  { config := { admins := [admin], threshold := 1 }
    wallet := platform_wallet
    proposals := fun _ => none
    active := []
    counter := 0 }

/-- Read-only query returning the current multi-sig configuration. -/
def get_multisig_config (s : State) : Config := s.config

/-- Read-only query: `get_proposal(id)`, fails `NotFound` if absent. -/
def get_proposal (s : State) (id : Nat) : Except Err Proposal :=
  match s.proposals id with
  | none => .error .NotFound
  | some p => .ok p

/-- Read-only query: the active-proposal index. -/
def get_active_proposals (s : State) : List Nat := s.active

/-- Structural invariant I1/I2 of spec §3: `1 ≤ threshold ≤ |admins|`. -/
def ConfigOK (c : Config) : Prop :=
  1 ≤ c.threshold ∧ c.threshold ≤ c.admins.length

/-- States reachable from a validly initialized configuration by any sequence
of the public mutating operations (the read-only queries do not change
state). Each operation's resulting state is its first component, which on
error equals the input state. -/
inductive Reachable : State → Prop where
  | init (a : Admin) (w : Address) (fee : Nat) : Reachable (initContract a w fee)
  | create (s : State) (pr : Admin) (k : ProposalType) (ttl : Nat) (now : Time) :
      Reachable s → Reachable (create_proposal s pr k ttl now).1
  | approve (s : State) (a : Admin) (id : Nat) (now : Time) :
      Reachable s → Reachable (approve_proposal s a id now).1
  | execute (s : State) (e : Admin) (id : Nat) (now : Time) :
      Reachable s → Reachable (execute_proposal s e id now).1

theorem putProposal_get_same (ps : Nat → Option Proposal) (id : Nat)
    (p : Proposal) : putProposal ps id p id = some p := by
  simp [putProposal]

theorem putProposal_get_other (ps : Nat → Option Proposal) (id j : Nat)
    (p : Proposal) (h : j ≠ id) : putProposal ps id p j = ps j := by
  simp [putProposal, h]

theorem create_error_state (s : State) (pr : Admin) (k : ProposalType)
    (ttl : Nat) (now : Time) (e : Err)
    (h : (create_proposal s pr k ttl now).2 = .error e) :
    (create_proposal s pr k ttl now).1 = s := by
  by_cases h1 : is_admin s.config pr = true
  · by_cases h2 : sanity_check s.config k = true
    · simp [create_proposal, h1, h2] at h
    · simp [create_proposal, h1, h2]
  · simp [create_proposal, h1]

theorem approve_error_state (s : State) (a : Admin) (id : Nat) (now : Time)
    (e : Err) (h : (approve_proposal s a id now).2 = .error e) :
    (approve_proposal s a id now).1 = s := by
  cases hp : s.proposals id with
  | none => simp [approve_proposal, hp]
  | some p =>
    by_cases h1 : p.executed = true
    · simp [approve_proposal, hp, h1]
    · by_cases h2 : isExpired p now = true
      · simp [approve_proposal, hp, h1, h2]
      · by_cases h3 : is_admin s.config a = true
        · by_cases h4 : a ∈ p.approvals
          · simp [approve_proposal, hp, h1, h2, h3, h4]
          · simp [approve_proposal, hp, h1, h2, h3, h4] at h
        · simp [approve_proposal, hp, h1, h2, h3]

theorem execute_error_state (s : State) (ex : Admin) (id : Nat) (now : Time)
    (e : Err) (h : (execute_proposal s ex id now).2 = .error e) :
    (execute_proposal s ex id now).1 = s := by
  cases hp : s.proposals id with
  | none => simp [execute_proposal, hp]
  | some p =>
    by_cases h1 : p.executed = true
    · simp [execute_proposal, hp, h1]
    · by_cases h2 : isExpired p now = true
      · simp [execute_proposal, hp, h1, h2]
      · by_cases h3 : is_admin s.config ex = true
        · by_cases h4 : validApprovals s.config p < s.config.threshold
          · simp [execute_proposal, hp, h1, h2, h3, h4]
          · cases ha : exec_apply s.config s.wallet p.kind with
            | error e2 => simp [execute_proposal, hp, h1, h2, h3, h4, ha]
            | ok r =>
              obtain ⟨cfg', w'⟩ := r
              simp [execute_proposal, hp, h1, h2, h3, h4, ha] at h
        · simp [execute_proposal, hp, h1, h2, h3]

theorem exec_apply_no_insufficient (cfg : Config) (w : Address)
    (k : ProposalType) : exec_apply cfg w k ≠ .error .InsufficientApprovals := by
  cases k with
  | SetWallet addr => simp [exec_apply]
  | AddAdmin x => by_cases hx : x ∈ cfg.admins <;> simp [exec_apply, hx]
  | RemoveAdmin x =>
    by_cases hx : x ∈ cfg.admins
    · by_cases hl : cfg.admins.length = 1 <;> simp [exec_apply, hx, hl]
    · simp [exec_apply, hx]
  | SetThreshold t =>
    by_cases ht : validate_threshold t cfg.admins.length = true <;>
      simp [exec_apply, ht]

/-- C1: with the earlier execution preconditions satisfied (proposal exists,
not executed, not expired, executor a current admin), `execute_proposal`
fails `InsufficientApprovals` exactly when the number of recorded approvals
belonging to still-current admins (`validApprovals`, which filters out
approvals of since-removed admins) is strictly below the current threshold;
otherwise the threshold check passes and the call never returns
`InsufficientApprovals`. -/
theorem execute_threshold_gate (s : State) (executor : Admin) (id : Nat)
    (now : Time) (p : Proposal)
    (hP : s.proposals id = some p) (hX : p.executed = false)
    (hE : isExpired p now = false) (hA : is_admin s.config executor = true) :
    (validApprovals s.config p < s.config.threshold →
      execute_proposal s executor id now = (s, .error .InsufficientApprovals)) ∧
    (s.config.threshold ≤ validApprovals s.config p →
      (execute_proposal s executor id now).2 ≠ .error .InsufficientApprovals) := by
  constructor
  · intro hlt
    simp [execute_proposal, hP, hX, hE, hA, hlt]
  · intro hge
    have hnlt : ¬ validApprovals s.config p < s.config.threshold := by omega
    cases ha : exec_apply s.config s.wallet p.kind with
    | error e2 =>
      have hne := exec_apply_no_insufficient s.config s.wallet p.kind
      rw [ha] at hne
      simp [execute_proposal, hP, hX, hE, hA, hnlt, ha]
      intro hc
      exact hne (by rw [hc])
    | ok r =>
      obtain ⟨cfg', w'⟩ := r
      simp [execute_proposal, hP, hX, hE, hA, hnlt, ha]

def pW1 : Proposal :=
  { id := 1, kind := .SetWallet 7, proposer := 0, approvals := [0],
    created_at := 5, expires_at := 0, executed := false }

def sW1 : State :=
  { config := { admins := [0], threshold := 1 }
    wallet := 8
    proposals := fun j => if j = 1 then some pW1 else none
    active := [1]
    counter := 1 }

/-- Witness for C1 at a concrete state: one admin, a live proposal with the
admin's approval recorded. -/
theorem execute_threshold_gate_witness :
    (validApprovals sW1.config pW1 < sW1.config.threshold →
      execute_proposal sW1 0 1 5 = (sW1, .error .InsufficientApprovals)) ∧
    (sW1.config.threshold ≤ validApprovals sW1.config pW1 →
      (execute_proposal sW1 0 1 5).2 ≠ .error .InsufficientApprovals) :=
  execute_threshold_gate sW1 0 1 5 pW1 rfl rfl rfl rfl

/-- C10: immediately after initialization, `get_multisig_config` returns
exactly the one initial admin with threshold 1, so the structural invariants
`1 ≤ threshold ≤ |admins|` and `|admins| ≥ 1` hold in the initial state. -/
theorem initContract_config (a : Admin) (w : Address) (fee : Nat) :
    get_multisig_config (initContract a w fee) = { admins := [a], threshold := 1 } ∧
    1 ≤ (initContract a w fee).config.threshold ∧
    (initContract a w fee).config.threshold ≤
      (initContract a w fee).config.admins.length ∧
    1 ≤ (initContract a w fee).config.admins.length := by
  refine ⟨rfl, ?_, ?_, ?_⟩ <;> simp [initContract]

/-- C6: whenever a public mutating operation (`create_proposal`,
`approve_proposal`, `execute_proposal`) returns an error, the observable
state — configuration, every stored proposal, the active index and the id
counter — is exactly the state before the call: each call either fully
applies its effect or has no side effect. -/
theorem ops_error_no_side_effect :
    (∀ s pr k ttl now e, (create_proposal s pr k ttl now).2 = .error e →
      (create_proposal s pr k ttl now).1 = s) ∧
    (∀ s a id now e, (approve_proposal s a id now).2 = .error e →
      (approve_proposal s a id now).1 = s) ∧
    (∀ s ex id now e, (execute_proposal s ex id now).2 = .error e →
      (execute_proposal s ex id now).1 = s) :=
  ⟨create_error_state, approve_error_state, execute_error_state⟩

/-- Witness for C6 at a concrete erroring call: a non-admin caller's
`create_proposal` fails `Unauthorized` and leaves the state untouched. -/
theorem ops_error_no_side_effect_witness :
    (create_proposal (initContract 0 0 0) 1 (.SetWallet 2) 0 0).2 =
      .error .Unauthorized ∧
    (create_proposal (initContract 0 0 0) 1 (.SetWallet 2) 0 0).1 =
      initContract 0 0 0 :=
  ⟨rfl, ops_error_no_side_effect.1 (initContract 0 0 0) 1 (.SetWallet 2) 0 0
    .Unauthorized rfl⟩

/-- C7: a proposal created with `ttl = T > 0` at time `t0` gets
`expires_at = t0 + T`, and any not-yet-executed proposal whose `expires_at`
is not the "never" sentinel is rejected by both `approve_proposal` and
`execute_proposal` with `ProposalExpired` at every time strictly past
`expires_at`; a proposal created with `ttl = 0` carries the sentinel and
never expires. -/
theorem proposal_expiry :
    (∀ s pr k T t0 s' id, 0 < T → create_proposal s pr k T t0 = (s', .ok id) →
      ∃ p, s'.proposals id = some p ∧ p.expires_at = t0 + T) ∧
    (∀ s pr k t0 s' id, create_proposal s pr k 0 t0 = (s', .ok id) →
      ∃ p, s'.proposals id = some p ∧ p.expires_at = 0 ∧
        ∀ t, isExpired p t = false) ∧
    (∀ s idp p t, s.proposals idp = some p → p.executed = false →
      p.expires_at ≠ 0 → p.expires_at < t →
      (∀ a, approve_proposal s a idp t = (s, .error .ProposalExpired)) ∧
      (∀ e, execute_proposal s e idp t = (s, .error .ProposalExpired))) := by
  refine ⟨?_, ?_, ?_⟩
  · intro s pr k T t0 s' id hT h
    by_cases h1 : is_admin s.config pr = true
    · by_cases h2 : sanity_check s.config k = true
      · simp [create_proposal, h1, h2] at h
        obtain ⟨hs, hid⟩ := h
        have hT0 : T ≠ 0 := by omega
        refine ⟨⟨s.counter + 1, k, pr, [pr], t0,
          if T = 0 then 0 else t0 + T, false⟩, ?_, by simp [hT0]⟩
        rw [← hs, ← hid]
        exact putProposal_get_same _ _ _
      · simp [create_proposal, h1, h2] at h
    · simp [create_proposal, h1] at h
  · intro s pr k t0 s' id h
    by_cases h1 : is_admin s.config pr = true
    · by_cases h2 : sanity_check s.config k = true
      · simp [create_proposal, h1, h2] at h
        obtain ⟨hs, hid⟩ := h
        refine ⟨⟨s.counter + 1, k, pr, [pr], t0, 0, false⟩, ?_, rfl,
          fun t => by simp [isExpired]⟩
        rw [← hs, ← hid]
        exact putProposal_get_same _ _ _
      · simp [create_proposal, h1, h2] at h
    · simp [create_proposal, h1] at h
  · intro s idp p t hP hX hne hlt
    have hexp : isExpired p t = true := by
      simp [isExpired]
      exact ⟨hne, hlt⟩
    constructor
    · intro a
      simp [approve_proposal, hP, hX, hexp]
    · intro e
      simp [execute_proposal, hP, hX, hexp]

def pW7 : Proposal :=
  { id := 1, kind := .SetWallet 7, proposer := 0, approvals := [0],
    created_at := 0, expires_at := 5, executed := false }

def sW7 : State :=
  { config := { admins := [0], threshold := 1 }
    wallet := 8
    proposals := fun j => if j = 1 then some pW7 else none
    active := [1]
    counter := 1 }

/-- Witness for C7: a proposal that expired at time 5 is rejected with
`ProposalExpired` by both operations at time 10 (spec §8 scenario E). -/
theorem proposal_expiry_witness :
    approve_proposal sW7 0 1 10 = (sW7, .error .ProposalExpired) ∧
    execute_proposal sW7 0 1 10 = (sW7, .error .ProposalExpired) :=
  ⟨(proposal_expiry.2.2 sW7 1 pW7 10 rfl rfl (by decide) (by decide)).1 0,
   (proposal_expiry.2.2 sW7 1 pW7 10 rfl rfl (by decide) (by decide)).2 0⟩

/-- C8: when an admin `a` is already a member of a live proposal's approvals
set, a further `approve_proposal(a, id)` fails `AlreadyApproved` and leaves
the state (hence the approvals set and its size) unchanged; in particular a
second approval of the same proposal by the same admin always fails. -/
theorem double_approval_fails :
    (∀ s a id now p, s.proposals id = some p → p.executed = false →
      isExpired p now = false → is_admin s.config a = true → a ∈ p.approvals →
      approve_proposal s a id now = (s, .error .AlreadyApproved)) ∧
    (∀ s a id now s1, approve_proposal s a id now = (s1, .ok ()) →
      approve_proposal s1 a id now = (s1, .error .AlreadyApproved)) := by
  constructor
  · intro s a id now p hP hX hE hA hm
    simp [approve_proposal, hP, hX, hE, hA, hm]
  · intro s a id now s1 h
    cases hp : s.proposals id with
    | none => simp [approve_proposal, hp] at h
    | some p =>
      by_cases h1 : p.executed = true
      · simp [approve_proposal, hp, h1] at h
      · by_cases h2 : isExpired p now = true
        · simp [approve_proposal, hp, h1, h2] at h
        · by_cases h3 : is_admin s.config a = true
          · by_cases h4 : a ∈ p.approvals
            · simp [approve_proposal, hp, h1, h2, h3, h4] at h
            · simp [approve_proposal, hp, h1, h2, h3, h4] at h
              subst h
              simp [isExpired] at h2
              simp [approve_proposal, putProposal_get_same, isExpired, h1, h3]
              exact h2
          · simp [approve_proposal, hp, h1, h2, h3] at h

def pW8 : Proposal :=
  { id := 1, kind := .SetWallet 7, proposer := 0, approvals := [0],
    created_at := 0, expires_at := 0, executed := false }

def sW8 : State :=
  { config := { admins := [0], threshold := 1 }
    wallet := 8
    proposals := fun j => if j = 1 then some pW8 else none
    active := [1]
    counter := 1 }

/-- Witness for C8: the proposer (already in the approvals set) approving
again fails `AlreadyApproved` with the state unchanged. -/
theorem double_approval_fails_witness :
    approve_proposal sW8 0 1 0 = (sW8, .error .AlreadyApproved) :=
  double_approval_fails.1 sW8 0 1 0 pW8 rfl rfl rfl rfl (by decide)

/-- C9: a successful `create_proposal` returns the freshly incremented id
(counter + 1, so ids start at 1 and, the counter being monotone, are
strictly greater than every previously stored id and never reused); the
stored proposal has `approvals = {proposer}`, `executed = false`,
`created_at = now`, `expires_at = now + ttl` (sentinel 0 when `ttl = 0`),
and the id is added to the active index. -/
theorem create_proposal_fresh (s : State) (pr : Admin) (k : ProposalType)
    (ttl : Nat) (now : Time) (s' : State) (id : Nat)
    (h : create_proposal s pr k ttl now = (s', .ok id)) :
    id = s.counter + 1 ∧ s'.counter = id ∧
    ((∀ j q, s.proposals j = some q → j ≤ s.counter) →
      ∀ j q, s.proposals j = some q → j < id) ∧
    s'.proposals id =
      some ⟨id, k, pr, [pr], now, (if ttl = 0 then 0 else now + ttl), false⟩ ∧
    id ∈ s'.active ∧ (s.counter = 0 → id = 1) := by
  by_cases h1 : is_admin s.config pr = true
  · by_cases h2 : sanity_check s.config k = true
    · simp [create_proposal, h1, h2] at h
      obtain ⟨hs, hid⟩ := h
      subst hid
      subst hs
      refine ⟨rfl, rfl, ?_, ?_, ?_, by omega⟩
      · intro hb j q hj
        have := hb j q hj
        omega
      · exact putProposal_get_same _ _ _
      · simp
    · simp [create_proposal, h1, h2] at h
  · simp [create_proposal, h1] at h

def sW9 : State := (create_proposal (initContract 3 9 0) 3 (.AddAdmin 4) 7 2).1

/-- Witness for C9: the first proposal created after initialization gets id
1, the proposer's auto-approval, and expiry `created_at + ttl`. -/
theorem create_proposal_fresh_witness :
    1 = (initContract 3 9 0).counter + 1 ∧ sW9.counter = 1 ∧
    ((∀ j q, (initContract 3 9 0).proposals j = some q →
        j ≤ (initContract 3 9 0).counter) →
      ∀ j q, (initContract 3 9 0).proposals j = some q → j < 1) ∧
    sW9.proposals 1 =
      some ⟨1, .AddAdmin 4, 3, [3], 2, (if 7 = 0 then 0 else 2 + 7), false⟩ ∧
    1 ∈ sW9.active ∧ ((initContract 3 9 0).counter = 0 → 1 = 1) :=
  create_proposal_fresh (initContract 3 9 0) 3 (.AddAdmin 4) 7 2 sW9 1 rfl

/-- C4: whenever `execute_proposal` successfully executes a `RemoveAdmin`
mutation, the admin count drops by one and, within the same atomic step, the
threshold is clamped to the new admin count exactly when that count fell
strictly below the old threshold (and is left unchanged otherwise), so the
state after the call never shows `threshold > |admins|`. -/
theorem execute_remove_admin_clamp (s : State) (ex : Admin) (id : Nat)
    (now : Time) (s' : State) (p : Proposal) (x : Admin)
    (hP : s.proposals id = some p) (hK : p.kind = .RemoveAdmin x)
    (h : execute_proposal s ex id now = (s', .ok ())) :
    s'.config.admins.length = s.config.admins.length - 1 ∧
    s'.config.threshold ≤ s'.config.admins.length ∧
    (s'.config.admins.length < s.config.threshold →
      s'.config.threshold = s'.config.admins.length) ∧
    (s.config.threshold ≤ s'.config.admins.length →
      s'.config.threshold = s.config.threshold) := by
  by_cases h1 : p.executed = true
  · simp [execute_proposal, hP, h1] at h
  · by_cases h2 : isExpired p now = true
    · simp [execute_proposal, hP, h1, h2] at h
    · by_cases h3 : is_admin s.config ex = true
      · by_cases h4 : validApprovals s.config p < s.config.threshold
        · simp [execute_proposal, hP, h1, h2, h3, h4] at h
        · by_cases hx : x ∈ s.config.admins
          · by_cases hl : s.config.admins.length = 1
            · simp [execute_proposal, hP, h1, h2, h3, h4, exec_apply, hK,
                hx, hl] at h
            · simp [execute_proposal, hP, h1, h2, h3, h4, exec_apply, hK,
                hx, hl] at h
              subst h
              have hlen : (s.config.admins.erase x).length =
                  s.config.admins.length - 1 := List.length_erase_of_mem hx
              have hpos : 0 < s.config.admins.length :=
                List.length_pos.mpr (List.ne_nil_of_mem hx)
              by_cases hc : s.config.admins.length - 1 < s.config.threshold <;>
                refine ⟨by simp [hlen], ?_, ?_, ?_⟩ <;>
                  (simp [hlen, hc]; try omega)
          · simp [execute_proposal, hP, h1, h2, h3, h4, exec_apply, hK,
              hx] at h
      · simp [execute_proposal, hP, h1, h2, h3] at h

def pW4 : Proposal :=
  { id := 1, kind := .RemoveAdmin 1, proposer := 0, approvals := [0, 1],
    created_at := 0, expires_at := 0, executed := false }

def sW4 : State :=
  { config := { admins := [0, 1], threshold := 2 }
    wallet := 8
    proposals := fun j => if j = 1 then some pW4 else none
    active := [1]
    counter := 1 }

def sW4x : State := (execute_proposal sW4 0 1 0).1

/-- Witness for C4: removing one of two admins under threshold 2 clamps the
threshold to 1 in the very state the call returns. -/
theorem execute_remove_admin_clamp_witness :
    sW4x.config.admins.length = sW4.config.admins.length - 1 ∧
    sW4x.config.threshold ≤ sW4x.config.admins.length ∧
    (sW4x.config.admins.length < sW4.config.threshold →
      sW4x.config.threshold = sW4x.config.admins.length) ∧
    (sW4.config.threshold ≤ sW4x.config.admins.length →
      sW4x.config.threshold = sW4.config.threshold) :=
  execute_remove_admin_clamp sW4 0 1 0 sW4x pW4 1 rfl rfl rfl

/-- C5: once a stored proposal has `executed = true`, `approve_proposal` and
`execute_proposal` on that id fail `AlreadyExecuted` (leaving the state
unchanged), and no public operation — create, approve or execute, at any
arguments — ever turns the flag back to false (stated under the storage
invariant that stored ids never exceed the id counter, which reachable
states satisfy). -/
theorem executed_monotone (s : State) (id : Nat) (p : Proposal)
    (hP : s.proposals id = some p) (hX : p.executed = true)
    (hC : ∀ j q, s.proposals j = some q → j ≤ s.counter) :
    (∀ a now, approve_proposal s a id now = (s, .error .AlreadyExecuted)) ∧
    (∀ ex now, execute_proposal s ex id now = (s, .error .AlreadyExecuted)) ∧
    (∀ pr k ttl now, ∃ q,
      ((create_proposal s pr k ttl now).1).proposals id = some q ∧
      q.executed = true) ∧
    (∀ a j now, ∃ q,
      ((approve_proposal s a j now).1).proposals id = some q ∧
      q.executed = true) ∧
    (∀ ex j now, ∃ q,
      ((execute_proposal s ex j now).1).proposals id = some q ∧
      q.executed = true) := by
  refine ⟨?_, ?_, ?_, ?_, ?_⟩
  · intro a now
    simp [approve_proposal, hP, hX]
  · intro ex now
    simp [execute_proposal, hP, hX]
  · intro pr k ttl now
    by_cases h1 : is_admin s.config pr = true
    · by_cases h2 : sanity_check s.config k = true
      · have hle : id ≤ s.counter := hC id p hP
        have hne : ¬ id = s.counter + 1 := by omega
        refine ⟨p, ?_, hX⟩
        simp [create_proposal, h1, h2, putProposal, hne, hP]
      · exact ⟨p, by simp [create_proposal, h1, h2, hP], hX⟩
    · exact ⟨p, by simp [create_proposal, h1, hP], hX⟩
  · intro a j now
    cases hq : s.proposals j with
    | none => exact ⟨p, by simp [approve_proposal, hq, hP], hX⟩
    | some q =>
      by_cases h1 : q.executed = true
      · exact ⟨p, by simp [approve_proposal, hq, h1, hP], hX⟩
      · by_cases h2 : isExpired q now = true
        · exact ⟨p, by simp [approve_proposal, hq, h1, h2, hP], hX⟩
        · by_cases h3 : is_admin s.config a = true
          · by_cases h4 : a ∈ q.approvals
            · exact ⟨p, by simp [approve_proposal, hq, h1, h2, h3, h4, hP], hX⟩
            · have hne : ¬ id = j := by
                intro hji
                subst hji
                rw [hP] at hq
                have hpq : p = q := by injection hq
                exact h1 (hpq ▸ hX)
              refine ⟨p, ?_, hX⟩
              simp [approve_proposal, hq, h1, h2, h3, h4, putProposal, hne, hP]
          · exact ⟨p, by simp [approve_proposal, hq, h1, h2, h3, hP], hX⟩
  · intro ex j now
    cases hq : s.proposals j with
    | none => exact ⟨p, by simp [execute_proposal, hq, hP], hX⟩
    | some q =>
      by_cases h1 : q.executed = true
      · exact ⟨p, by simp [execute_proposal, hq, h1, hP], hX⟩
      · by_cases h2 : isExpired q now = true
        · exact ⟨p, by simp [execute_proposal, hq, h1, h2, hP], hX⟩
        · by_cases h3 : is_admin s.config ex = true
          · by_cases h4 : validApprovals s.config q < s.config.threshold
            · exact ⟨p, by simp [execute_proposal, hq, h1, h2, h3, h4, hP], hX⟩
            · cases ha : exec_apply s.config s.wallet q.kind with
              | error e2 =>
                exact ⟨p,
                  by simp [execute_proposal, hq, h1, h2, h3, h4, ha, hP], hX⟩
              | ok r =>
                obtain ⟨cfg', w'⟩ := r
                have hne : ¬ id = j := by
                  intro hji
                  subst hji
                  rw [hP] at hq
                  have hpq : p = q := by injection hq
                  exact h1 (hpq ▸ hX)
                refine ⟨p, ?_, hX⟩
                simp [execute_proposal, hq, h1, h2, h3, h4, ha, putProposal,
                  hne, hP]
          · exact ⟨p, by simp [execute_proposal, hq, h1, h2, h3, hP], hX⟩

def pW5 : Proposal :=
  { id := 1, kind := .SetWallet 7, proposer := 0, approvals := [0],
    created_at := 0, expires_at := 0, executed := true }

def sW5 : State :=
  { config := { admins := [0], threshold := 1 }
    wallet := 8
    proposals := fun j => if j = 1 then some pW5 else none
    active := []
    counter := 1 }

/-- Witness for C5 at a concrete executed proposal. -/
theorem executed_monotone_witness :
    (∀ a now, approve_proposal sW5 a 1 now = (sW5, .error .AlreadyExecuted)) ∧
    (∀ ex now, execute_proposal sW5 ex 1 now = (sW5, .error .AlreadyExecuted)) ∧
    (∀ pr k ttl now, ∃ q,
      ((create_proposal sW5 pr k ttl now).1).proposals 1 = some q ∧
      q.executed = true) ∧
    (∀ a j now, ∃ q,
      ((approve_proposal sW5 a j now).1).proposals 1 = some q ∧
      q.executed = true) ∧
    (∀ ex j now, ∃ q,
      ((execute_proposal sW5 ex j now).1).proposals 1 = some q ∧
      q.executed = true) :=
  executed_monotone sW5 1 pW5 rfl rfl (by
    intro j q hj
    by_cases hj1 : j = 1
    · subst hj1
      decide
    · simp [sW5, hj1] at hj)

def pC3 : Proposal :=
  { id := 1, kind := .RemoveAdmin 0, proposer := 1, approvals := [1],
    created_at := 0, expires_at := 0, executed := false }

def sC3 : State :=
  { config := { admins := [0], threshold := 1 }
    wallet := 8
    proposals := fun j => if j = 1 then some pC3 else none
    active := [1]
    counter := 1 }

/-- Counterexample to C3 as stated: the admin set has exactly one member (0)
and the `RemoveAdmin(0)` proposal carries one approval, recorded by admin 1
who has since been removed; `execute_proposal` fails with
`InsufficientApprovals` — the threshold gate fires before the last-admin
guard — not with `CannotRemoveLastAdmin`. -/
theorem remove_last_admin_counterexample :
    sC3.config.admins.length = 1 ∧ pC3.kind = .RemoveAdmin 0 ∧
    sC3.proposals 1 = some pC3 ∧ pC3.approvals.length = 1 ∧
    (execute_proposal sC3 0 1 0).2 = .error .InsufficientApprovals ∧
    (execute_proposal sC3 0 1 0).2 ≠ .error .CannotRemoveLastAdmin := by
  refine ⟨rfl, rfl, rfl, rfl, rfl, fun hcon => ?_⟩
  have h5 : (Except.error Err.InsufficientApprovals : Except Err Unit) =
      Except.error Err.CannotRemoveLastAdmin := hcon
  simp at h5

/-- C3 (amended): a `RemoveAdmin(x)` proposal can never be successfully
executed while the current admin set has exactly one member, whatever the
collected approvals; the failure is `CannotRemoveLastAdmin` precisely when
the earlier checks pass (live proposal, admin executor, threshold met by
still-current approvals, and x a current admin) — with too few
still-current approvals the call fails `InsufficientApprovals` instead. -/
theorem remove_last_admin_guard (s : State) (ex : Admin) (id : Nat)
    (now : Time) (p : Proposal) (x : Admin)
    (hP : s.proposals id = some p) (hK : p.kind = .RemoveAdmin x)
    (h1 : s.config.admins.length = 1) :
    (execute_proposal s ex id now).2 ≠ .ok () ∧
    (p.executed = false → isExpired p now = false →
      is_admin s.config ex = true →
      s.config.threshold ≤ validApprovals s.config p →
      x ∈ s.config.admins →
      (execute_proposal s ex id now).2 = .error .CannotRemoveLastAdmin) := by
  constructor
  · by_cases hx1 : p.executed = true
    · simp [execute_proposal, hP, hx1]
    · by_cases hx2 : isExpired p now = true
      · simp [execute_proposal, hP, hx1, hx2]
      · by_cases hx3 : is_admin s.config ex = true
        · by_cases hx4 : validApprovals s.config p < s.config.threshold
          · simp [execute_proposal, hP, hx1, hx2, hx3, hx4]
          · by_cases hx : x ∈ s.config.admins
            · simp [execute_proposal, hP, hx1, hx2, hx3, hx4, exec_apply,
                hK, hx, h1]
            · simp [execute_proposal, hP, hx1, hx2, hx3, hx4, exec_apply,
                hK, hx]
        · simp [execute_proposal, hP, hx1, hx2, hx3]
  · intro hx1 hx2 hx3 hge hx
    have hx4 : ¬ validApprovals s.config p < s.config.threshold := by omega
    simp [execute_proposal, hP, hx1, hx2, hx3, hx4, exec_apply, hK, hx, h1]

def pC3b : Proposal :=
  { id := 1, kind := .RemoveAdmin 0, proposer := 0, approvals := [0],
    created_at := 0, expires_at := 0, executed := false }

def sC3b : State :=
  { config := { admins := [0], threshold := 1 }
    wallet := 8
    proposals := fun j => if j = 1 then some pC3b else none
    active := [1]
    counter := 1 }

/-- Witness for C3 (amended): a fully approved `RemoveAdmin` of the sole
admin is never executable and fails `CannotRemoveLastAdmin` (spec §8
scenario D). -/
theorem remove_last_admin_guard_witness :
    (execute_proposal sC3b 0 1 0).2 ≠ .ok () ∧
    (pC3b.executed = false → isExpired pC3b 0 = false →
      is_admin sC3b.config 0 = true →
      sC3b.config.threshold ≤ validApprovals sC3b.config pC3b →
      0 ∈ sC3b.config.admins →
      (execute_proposal sC3b 0 1 0).2 = .error .CannotRemoveLastAdmin) :=
  remove_last_admin_guard sC3b 0 1 0 pC3b 0 rfl rfl rfl

theorem create_config_eq (s : State) (pr : Admin) (k : ProposalType)
    (ttl : Nat) (now : Time) :
    (create_proposal s pr k ttl now).1.config = s.config := by
  by_cases h1 : is_admin s.config pr = true
  · by_cases h2 : sanity_check s.config k = true <;>
      simp [create_proposal, h1, h2]
  · simp [create_proposal, h1]

theorem approve_config_eq (s : State) (a : Admin) (id : Nat) (now : Time) :
    (approve_proposal s a id now).1.config = s.config := by
  cases hp : s.proposals id with
  | none => simp [approve_proposal, hp]
  | some p =>
    by_cases h1 : p.executed = true
    · simp [approve_proposal, hp, h1]
    · by_cases h2 : isExpired p now = true
      · simp [approve_proposal, hp, h1, h2]
      · by_cases h3 : is_admin s.config a = true
        · by_cases h4 : a ∈ p.approvals <;>
            simp [approve_proposal, hp, h1, h2, h3, h4]
        · simp [approve_proposal, hp, h1, h2, h3]

theorem exec_apply_config_ok (cfg : Config) (w : Address) (k : ProposalType)
    (cfg' : Config) (w' : Address) (h : exec_apply cfg w k = .ok (cfg', w'))
    (hc : ConfigOK cfg) : ConfigOK cfg' := by
  obtain ⟨hc1, hc2⟩ := hc
  cases k with
  | SetWallet addr =>
    simp [exec_apply] at h
    obtain ⟨h5, -⟩ := h
    subst h5
    exact ⟨hc1, hc2⟩
  | AddAdmin x =>
    by_cases hx : x ∈ cfg.admins
    · simp [exec_apply, hx] at h
    · simp [exec_apply, hx] at h
      obtain ⟨h5, -⟩ := h
      subst h5
      refine ⟨hc1, ?_⟩
      simp
      omega
  | RemoveAdmin x =>
    by_cases hx : x ∈ cfg.admins
    · by_cases hl : cfg.admins.length = 1
      · simp [exec_apply, hx, hl] at h
      · simp [exec_apply, hx, hl] at h
        obtain ⟨h5, -⟩ := h
        subst h5
        have hlen : (cfg.admins.erase x).length = cfg.admins.length - 1 :=
          List.length_erase_of_mem hx
        have hpos : 0 < cfg.admins.length :=
          List.length_pos.mpr (List.ne_nil_of_mem hx)
        constructor <;>
          by_cases hc3 : cfg.admins.length - 1 < cfg.threshold <;>
            simp [ConfigOK, hc3, hlen] <;> omega
    · simp [exec_apply, hx] at h
  | SetThreshold t =>
    by_cases ht : validate_threshold t cfg.admins.length = true
    · simp [exec_apply, ht] at h
      obtain ⟨h5, -⟩ := h
      subst h5
      simp [validate_threshold] at ht
      refine ⟨?_, ?_⟩
      · show 1 ≤ t
        omega
      · show t ≤ cfg.admins.length
        omega
    · simp [exec_apply, ht] at h

theorem execute_config_ok (s : State) (ex : Admin) (id : Nat) (now : Time)
    (hc : ConfigOK s.config) :
    ConfigOK ((execute_proposal s ex id now).1).config := by
  cases hp : s.proposals id with
  | none => simpa [execute_proposal, hp] using hc
  | some p =>
    by_cases h1 : p.executed = true
    · simpa [execute_proposal, hp, h1] using hc
    · by_cases h2 : isExpired p now = true
      · simpa [execute_proposal, hp, h1, h2] using hc
      · by_cases h3 : is_admin s.config ex = true
        · by_cases h4 : validApprovals s.config p < s.config.threshold
          · simpa [execute_proposal, hp, h1, h2, h3, h4] using hc
          · cases ha : exec_apply s.config s.wallet p.kind with
            | error e2 =>
              simpa [execute_proposal, hp, h1, h2, h3, h4, ha] using hc
            | ok r =>
              obtain ⟨cfg', w'⟩ := r
              have hgood :=
                exec_apply_config_ok s.config s.wallet p.kind cfg' w' ha hc
              simpa [execute_proposal, hp, h1, h2, h3, h4, ha] using hgood
        · simpa [execute_proposal, hp, h1, h2, h3] using hc

/-- C2: in every state reachable from a validly initialized configuration by
any sequence of the public operations (the read-only queries leave the state
untouched), the configuration satisfies `1 ≤ threshold ≤ |admins|`, and in
particular `|admins| ≥ 1`. -/
theorem reachable_invariant (s : State) (h : Reachable s) :
    1 ≤ s.config.threshold ∧ s.config.threshold ≤ s.config.admins.length ∧
    1 ≤ s.config.admins.length := by
  have hok : ConfigOK s.config := by
    induction h with
    | init a w fee => exact ⟨by simp [initContract], by simp [initContract]⟩
    | create s0 pr k ttl now hr ih =>
      rw [create_config_eq]
      exact ih
    | approve s0 a id now hr ih =>
      rw [approve_config_eq]
      exact ih
    | execute s0 ex id now hr ih => exact execute_config_ok s0 ex id now ih
  obtain ⟨ha, hb⟩ := hok
  exact ⟨ha, hb, le_trans ha hb⟩

/-- Witness for C2 at the concrete reachable state produced by
initialization. -/
theorem reachable_invariant_witness :
    1 ≤ (initContract 4 1 2).config.threshold ∧
    (initContract 4 1 2).config.threshold ≤
      (initContract 4 1 2).config.admins.length ∧
    1 ≤ (initContract 4 1 2).config.admins.length :=
  reachable_invariant (initContract 4 1 2) (Reachable.init 4 1 2)

end Agora
